import Mathlib

/-!
Verification of the shipping-data ETL pipeline (`populate_database.py`).

The script reads three CSV sheets, renames/projects sheet 0 straight into the
target schema, inner-merges sheets 1 and 2 on `shipment_identifier`, assigns a
unit quantity to every joined row, groups by (origin, destination,
product_name) summing quantities and taking the first `on_time`, back-fills
`driver_identifier = "unknown"`, and appends first the mapped sheet-0 rows and
then the aggregated rows to the `shipments` table.

The embedding models a pandas DataFrame as a list of column labels plus
positional rows of cell values.  Column labels produced by `read_csv` are
assumed unique, so label lookup takes the first matching column.
-/

/-- A cell value: CSV cells in this pipeline are strings, integers or booleans. -/
inductive Value where
  | str (s : String)
  | int (n : Int)
  | bool (b : Bool)
deriving DecidableEq

/-- Default cell used only for out-of-range lookups that the guards rule out. -/
def vdef : Value := Value.str ""

/-- A DataFrame: column labels plus rows of cells, matched positionally. -/
structure Table where
  cols : List String
  rows : List (List Value)
deriving DecidableEq

/-- Index of the first column with the given label. -/
def colIdx (cols : List String) (c : String) : Option Nat :=
  cols.findIdx? (fun c2 => c2 == c)

/-- Cell of a row under the given label, `none` if the label is absent. -/
def getCell (cols : List String) (r : List Value) (c : String) : Option Value :=
  (colIdx cols c).bind (fun i => r[i]?)

/-- Cell of a row under the given label, with a default for the absent case. -/
def cellD (cols : List String) (r : List Value) (c : String) : Value :=
  (getCell cols r c).getD vdef

/-- `DataFrame.rename(columns=m)`: relabel columns through the dictionary `m`;
labels not in the dictionary are kept. -/
def renameCol (m : List (String × String)) (c : String) : String :=
  (m.lookup c).getD c

/-- `rename` lifted to a whole table; rows are untouched. -/
def renameCols (m : List (String × String)) (t : Table) : Table :=
  { cols := t.cols.map (renameCol m), rows := t.rows }

/-- `df[[names]]`: project to the given labels in the given order; `none`
models the `KeyError` raised when a requested label is absent. -/
def selectCols (names : List String) (t : Table) : Option Table :=
  if ∀ c ∈ names, c ∈ t.cols then
    some { cols := names,
           rows := t.rows.map (fun r => names.map (fun c => cellD t.cols r c)) }
  else none

/-- Drop the cell sitting under label `c` from a row of the given table. -/
def dropCol (cols : List String) (c : String) (r : List Value) : List Value :=
  match colIdx cols c with
  | some i => r.eraseIdx i
  | none => r

/-- `pd.merge(tl, tr, on=key)`: inner join on `key`.  `none` models the
`KeyError` raised when the key column is absent from either side.  Row order
is left-frame order, each left row crossed with its matching right rows in
right-frame order; the key column of the right side is dropped. -/
def innerMerge (key : String) (tl tr : Table) : Option Table :=
  if key ∈ tl.cols ∧ key ∈ tr.cols then
    some { cols := tl.cols ++ tr.cols.filter (fun c => !(c == key)),
           rows := tl.rows.flatMap (fun rl =>
             (tr.rows.filter
                 (fun rr => decide (getCell tr.cols rr key = getCell tl.cols rl key))).map
               (fun rr => rl ++ dropCol tr.cols key rr)) }
  else none

/-- `df[c] = v`: overwrite column `c` if present, else append it at the end. -/
def setColumn (c : String) (v : Value) (t : Table) : Table :=
  if c ∈ t.cols then
    { cols := t.cols,
      rows := t.rows.map (fun r => r.set ((colIdx t.cols c).getD 0) v) }
  else
    { cols := t.cols ++ [c], rows := t.rows.map (fun r => r ++ [v]) }

/-- The rename dictionary applied to sheet 0 (script lines 41-46). -/
def mappingA : List (String × String) :=
  [("origin_warehouse", "origin"), ("destination_store", "destination"),
   ("product", "product_name"), ("product_quantity", "quantity")]

/-- The rename dictionary applied to the merged sheets 1+2 (lines 64-68). -/
def mappingBC : List (String × String) :=
  [("origin_warehouse", "origin"), ("destination_store", "destination"),
   ("product", "product_name")]

/-- The target `shipments` schema, in the canonical column order. -/
def shipmentCols : List String :=
  ["origin", "destination", "product_name", "quantity", "on_time", "driver_identifier"]

/-- Script line 41-46: `sheet0.rename(columns={...})`. -/
def sheet0_mapped (sheet0 : Table) : Table := renameCols mappingA sheet0

/-- Script line 49: project the renamed sheet 0 to the six target columns.
This is the whole Direct Mapper. -/
def sheet0_clean (sheet0 : Table) : Option Table :=
  selectCols shipmentCols (sheet0_mapped sheet0)

/-- An aggregation key: the (origin, destination, product_name) triple. -/
abbrev AggKey := Value × Value × Value

/-- The grouping key of a row (script line 75). -/
def keyOf (cols : List String) (r : List Value) : AggKey :=
  (cellD cols r "origin", cellD cols r "destination", cellD cols r "product_name")

/-- Encoding target giving `Value` a linear order: rank, then string payload,
then integer payload, then boolean payload, lexicographically. -/
abbrev EncV := Lex (ℕ × Lex (List Char × Lex (ℤ × Bool)))

/-- Order-encoding of a cell value; on two strings it is the usual
lexicographic string order, which is how pandas sorts the group keys. -/
def Value.enc : Value → EncV
  | .str s => toLex (0, toLex (s.data, toLex (0, false)))
  | .int n => toLex (1, toLex ([], toLex (n, false)))
  | .bool b => toLex (2, toLex ([], toLex (0, b)))

/-- Order-encoding of an aggregation key (lexicographic on the triple). -/
def AggKey.enc (k : AggKey) : Lex (EncV × Lex (EncV × EncV)) :=
  toLex (Value.enc k.1, toLex (Value.enc k.2.1, Value.enc k.2.2))

/-- Lexicographic order on aggregation keys: origin, then destination, then
product_name.  This is the order `groupby(sort=True)` sorts the keys in. -/
def keyLE (k1 k2 : AggKey) : Prop := AggKey.enc k1 ≤ AggKey.enc k2

instance : DecidableRel keyLE :=
  fun k1 k2 => inferInstanceAs (Decidable (AggKey.enc k1 ≤ AggKey.enc k2))

instance : IsTotal AggKey keyLE :=
  ⟨fun a b => le_total (AggKey.enc a) (AggKey.enc b)⟩

instance : IsTrans AggKey keyLE :=
  ⟨fun _ _ _ h1 h2 => le_trans h1 h2⟩

/-- Numeric view of a cell; the pipeline only ever sums integer cells. -/
def intOf : Value → Int
  | .int n => n
  | _ => 0

/-- The rows of `t` falling in the group of key `k`. -/
def groupRows (t : Table) (k : AggKey) : List (List Value) :=
  t.rows.filter (fun r => decide (keyOf t.cols r = k))

/-- The distinct group keys of `t`, in first-seen order. -/
def groupKeys (t : Table) : List AggKey :=
  (t.rows.map (keyOf t.cols)).dedup

/-- The distinct group keys of `t` in ascending lexicographic order
(`groupby` sorts keys by default). -/
def sortedGroupKeys (t : Table) : List AggKey :=
  List.insertionSort keyLE (groupKeys t)

/-- The aggregated row of one group (lines 74-78): the key columns, the sum of
the group's `quantity` cells, and the group's first `on_time` cell. -/
def aggRow (t : Table) (k : AggKey) : List Value :=
  [k.1, k.2.1, k.2.2,
   Value.int (((groupRows t k).map (fun r => intOf (cellD t.cols r "quantity"))).sum),
   (((groupRows t k).head?).map (fun r => cellD t.cols r "on_time")).getD vdef]

/-- Script lines 74-78: `groupby(['origin','destination','product_name'])
.agg({'quantity':'sum','on_time':'first'}).reset_index()`.  `none` models the
`KeyError` when a grouped or aggregated column is absent. -/
def groupbyAgg (t : Table) : Option Table :=
  if ∀ c ∈ ["origin", "destination", "product_name", "quantity", "on_time"],
      c ∈ t.cols then
    some { cols := ["origin", "destination", "product_name", "quantity", "on_time"],
           rows := (sortedGroupKeys t).map (aggRow t) }
  else none

/-- Script line 57: `pd.merge(sheet1, sheet2, on='shipment_identifier')`. -/
def merged (sheet1 sheet2 : Table) : Option Table :=
  innerMerge "shipment_identifier" sheet1 sheet2

/-- Script lines 64-71: rename the merged columns and assign the unit
quantity `1` to every joined row. -/
def merged_mapped (m : Table) : Table :=
  setColumn "quantity" (Value.int 1) (renameCols mappingBC m)

/-- Script lines 74-84: aggregate, back-fill `driver_identifier = "unknown"`,
and reorder to the canonical schema. -/
def shipment_summary (m : Table) : Option Table :=
  (groupbyAgg (merged_mapped m)).bind (fun g =>
    selectCols shipmentCols (setColumn "driver_identifier" (Value.str "unknown") g))

/-- The whole Join-Aggregate Reconciler (lines 57-84). -/
def reconciler (sheet1 sheet2 : Table) : Option Table :=
  (merged sheet1 sheet2).bind shipment_summary

/-- The ordered list of row batches appended to the `shipments` table, plus
whether the run completed.  The mapper's batch is appended (line 52) before
the merge is even attempted; the reconciler's batch follows (line 90). -/
def appendTrace (sheet0 sheet1 sheet2 : Table) : List (List (List Value)) × Bool :=
  match sheet0_clean sheet0 with
  | none => ([], false)
  | some t0 =>
    match reconciler sheet1 sheet2 with
    | none => ([t0.rows], false)
    | some t12 => ([t0.rows, t12.rows], true)

/-- Final content of the `shipments` table: the appended batches in order. -/
def dbRows (sheet0 sheet1 sheet2 : Table) : List (List Value) :=
  ((appendTrace sheet0 sheet1 sheet2).1).foldr (· ++ ·) []

/-- The column schema of sheet 1 (RawRecordSet B). -/
def colsB : List String :=
  ["shipment_identifier", "origin_warehouse", "destination_store", "product"]

/-- The column schema of sheet 2 (RawRecordSet C). -/
def colsC : List String := ["shipment_identifier", "on_time"]

/-- Columns of the merged table when the inputs carry the B/C schemas. -/
def mergedCols : List String :=
  ["shipment_identifier", "origin_warehouse", "destination_store", "product", "on_time"]

/-- Columns of `merged_mapped` when the inputs carry the B/C schemas. -/
def mmCols : List String :=
  ["shipment_identifier", "origin", "destination", "product_name", "on_time", "quantity"]

/-- Rows of the merged table when the inputs carry the B/C schemas: each left
row, crossed with its key-matching right rows, the right key cell dropped. -/
def mergedRows (sheet1 sheet2 : Table) : List (List Value) :=
  sheet1.rows.flatMap (fun rl =>
    (sheet2.rows.filter
        (fun rr => decide (getCell colsC rr "shipment_identifier"
          = getCell colsB rl "shipment_identifier"))).map
      (fun rr => rl ++ rr.eraseIdx 0))

/-- One final reconciler output row: key triple, summed quantity, first
`on_time`, and the back-filled driver sentinel. -/
def finalRow (t : Table) (k : AggKey) : List Value :=
  [k.1, k.2.1, k.2.2,
   Value.int (((groupRows t k).map (fun r => intOf (cellD t.cols r "quantity"))).sum),
   (((groupRows t k).head?).map (fun r => cellD t.cols r "on_time")).getD vdef,
   Value.str "unknown"]

/-- The merged table, for inputs carrying the B/C schemas. -/
def mergedT (sheet1 sheet2 : Table) : Table := ⟨mergedCols, mergedRows sheet1 sheet2⟩

/-- Whether a cell holds a strictly positive integer. -/
def isPosInt : Value → Bool
  | .int n => decide (0 < n)
  | _ => false

/-- A RawRecordSet A whose single row carries `product_quantity = 0`. -/
def exA0 : Table :=
  ⟨["origin_warehouse", "destination_store", "product", "product_quantity",
    "on_time", "driver_identifier"],
   [[Value.str "W3", Value.str "S3", Value.str "Bolt", Value.int 0,
     Value.bool true, Value.str "D1"]]⟩

/-! ## Example tables (the spec's end-to-end examples) -/

/-- The spec's E2E sheet-1 example (RawRecordSet B). -/
def exB : Table :=
  ⟨colsB, [[Value.int 1, Value.str "W1", Value.str "S1", Value.str "Widget"],
           [Value.int 2, Value.str "W1", Value.str "S1", Value.str "Widget"]]⟩

/-- The spec's E2E sheet-2 example (RawRecordSet C). -/
def exC : Table :=
  ⟨colsC, [[Value.int 1, Value.bool true], [Value.int 2, Value.bool true]]⟩

/-- The spec's E2E sheet-0 example (RawRecordSet A). -/
def exA : Table :=
  ⟨["origin_warehouse", "destination_store", "product", "product_quantity",
    "on_time", "driver_identifier"],
   [[Value.str "W2", Value.str "S2", Value.str "Gadget", Value.int 5,
     Value.bool false, Value.str "D9"]]⟩

example :
    reconciler exB exC
      = some ⟨shipmentCols,
          [[Value.str "W1", Value.str "S1", Value.str "Widget", Value.int 2,
            Value.bool true, Value.str "unknown"]]⟩ := by decide

example :
    sheet0_clean exA
      = some ⟨shipmentCols,
          [[Value.str "W2", Value.str "S2", Value.str "Gadget", Value.int 5,
            Value.bool false, Value.str "D9"]]⟩ := by decide

/-! ## Structural lemmas about the reconciler -/

theorem merged_eq (s1 s2 : Table) (h1 : s1.cols = colsB) (h2 : s2.cols = colsC) :
    merged s1 s2 = some (mergedT s1 s2) := by
  obtain ⟨c1, r1⟩ := s1
  obtain ⟨c2, r2⟩ := s2
  simp only [Table.cols] at h1 h2
  subst h1; subst h2
  rfl

theorem shipment_summary_eq (rM : List (List Value)) :
    shipment_summary ⟨mergedCols, rM⟩
      = some ⟨shipmentCols,
          (sortedGroupKeys (merged_mapped ⟨mergedCols, rM⟩)).map
            (finalRow (merged_mapped ⟨mergedCols, rM⟩))⟩ := by
  have h1 : shipment_summary ⟨mergedCols, rM⟩
      = some ⟨shipmentCols,
          (((sortedGroupKeys (merged_mapped ⟨mergedCols, rM⟩)).map
              (aggRow (merged_mapped ⟨mergedCols, rM⟩))).map
            (fun r => r ++ [Value.str "unknown"])).map
            (fun r => shipmentCols.map (fun c => cellD shipmentCols r c))⟩ := rfl
  rw [h1, List.map_map, List.map_map]
  rfl

theorem reconciler_eq (s1 s2 : Table) (h1 : s1.cols = colsB) (h2 : s2.cols = colsC) :
    reconciler s1 s2
      = some ⟨shipmentCols,
          (sortedGroupKeys (merged_mapped (mergedT s1 s2))).map
            (finalRow (merged_mapped (mergedT s1 s2)))⟩ := by
  rw [reconciler, merged_eq s1 s2 h1 h2]
  exact shipment_summary_eq (mergedRows s1 s2)

theorem mem_mergedRows {s1 s2 : Table} {r : List Value} (h : r ∈ mergedRows s1 s2) :
    ∃ rl rr, rl ∈ s1.rows ∧ rr ∈ s2.rows ∧ r = rl ++ rr.eraseIdx 0 := by
  simp only [mergedRows, List.mem_flatMap, List.mem_map, List.mem_filter] at h
  obtain ⟨rl, hrl, rr, ⟨hrr, _⟩, hr⟩ := h
  exact ⟨rl, rr, hrl, hrr, hr.symm⟩

theorem cellD_quantity_unit {m : List Value} (hm : m.length = 5) :
    cellD mmCols (m ++ [Value.int 1]) "quantity" = Value.int 1 := by
  have h5 : colIdx mmCols "quantity" = some 5 := rfl
  simp [cellD, getCell, h5, List.getElem?_append, hm]

/-- Every row of the renamed-and-unit-assigned join carries quantity `1`. -/
theorem mm_quantity_unit (s1 s2 : Table)
    (hl1 : ∀ r ∈ s1.rows, r.length = 4) (hl2 : ∀ r ∈ s2.rows, r.length = 2) :
    ∀ r ∈ (merged_mapped (mergedT s1 s2)).rows,
      cellD (merged_mapped (mergedT s1 s2)).cols r "quantity" = Value.int 1 := by
  intro r hr
  have hrows : (merged_mapped (mergedT s1 s2)).rows
      = (mergedRows s1 s2).map (fun m => m ++ [Value.int 1]) := rfl
  rw [hrows] at hr
  obtain ⟨m, hm, rfl⟩ := List.mem_map.mp hr
  obtain ⟨rl, rr, hrl, hrr, rfl⟩ := mem_mergedRows hm
  have h4 := hl1 rl hrl
  have h2 := hl2 rr hrr
  have hm5 : (rl ++ rr.eraseIdx 0).length = 5 := by
    simp [List.length_eraseIdx, h4, h2]
  exact cellD_quantity_unit hm5

/-- Reading the key columns back off a finished output row gives the key. -/
theorem keyOf_finalRow (t : Table) (k : AggKey) :
    keyOf shipmentCols (finalRow t k) = k := rfl

/-- Reading the quantity column off a finished output row gives the group sum. -/
theorem cellD_finalRow_quantity (t : Table) (k : AggKey) :
    cellD shipmentCols (finalRow t k) "quantity"
      = Value.int (((groupRows t k).map
          (fun r => intOf (cellD t.cols r "quantity"))).sum) := rfl

/-- Reading the driver column off a finished output row gives the sentinel. -/
theorem cellD_finalRow_driver (t : Table) (k : AggKey) :
    cellD shipmentCols (finalRow t k) "driver_identifier" = Value.str "unknown" := rfl

/-- Reading the on-time column off a finished output row gives the group's
first on-time cell. -/
theorem cellD_finalRow_on_time (t : Table) (k : AggKey) :
    cellD shipmentCols (finalRow t k) "on_time"
      = (((groupRows t k).head?).map (fun r => cellD t.cols r "on_time")).getD vdef := rfl

/-- A key listed among the (sorted) group keys has a nonempty group. -/
theorem group_nonempty {t : Table} {k : AggKey} (hk : k ∈ sortedGroupKeys t) :
    groupRows t k ≠ [] := by
  have hk2 : k ∈ groupKeys t :=
    ((List.perm_insertionSort keyLE (groupKeys t)).mem_iff).mp hk
  have hk3 : k ∈ t.rows.map (keyOf t.cols) := List.mem_dedup.mp hk2
  obtain ⟨row, hrow, hkey⟩ := List.mem_map.mp hk3
  have : row ∈ groupRows t k :=
    List.mem_filter.mpr ⟨hrow, by simp [hkey]⟩
  exact List.ne_nil_of_mem this

/-- A key of some row of `t` is listed among the sorted group keys. -/
theorem mem_sortedGroupKeys {t : Table} {k : AggKey}
    (hk : k ∈ t.rows.map (keyOf t.cols)) : k ∈ sortedGroupKeys t :=
  ((List.perm_insertionSort keyLE (groupKeys t)).mem_iff).mpr (List.mem_dedup.mpr hk)

/-- Summing a list of unit quantity cells counts the list. -/
theorem sum_units {cols : List String} {l : List (List Value)}
    (h : ∀ r ∈ l, cellD cols r "quantity" = Value.int 1) :
    (l.map (fun r => intOf (cellD cols r "quantity"))).sum = l.length := by
  induction l with
  | nil => rfl
  | cons a t ih =>
    have ha := h a (List.mem_cons_self a t)
    have ht := ih (fun r hr => h r (List.mem_cons_of_mem a hr))
    rw [List.map_cons, List.sum_cons, ha, ht]
    simp only [intOf, List.length_cons]
    omega

/-! ## Claims about the Join-Aggregate Reconciler -/

/-- C1: for inputs carrying the B/C schemas, every distinct aggregation key
present in the joined rows has an output row, and every output row carrying
that key has quantity equal to the number of joined rows sharing the key
(each joined row was assigned unit quantity 1 before grouping). -/
theorem C1_aggregation_count (s1 s2 : Table)
    (h1 : s1.cols = colsB) (h2 : s2.cols = colsC)
    (hl1 : ∀ r ∈ s1.rows, r.length = 4) (hl2 : ∀ r ∈ s2.rows, r.length = 2) :
    ∃ M out, merged s1 s2 = some M ∧ reconciler s1 s2 = some out ∧
      ∀ k ∈ (merged_mapped M).rows.map (keyOf (merged_mapped M).cols),
        (∃ r ∈ out.rows, keyOf out.cols r = k) ∧
        ∀ r ∈ out.rows, keyOf out.cols r = k →
          cellD out.cols r "quantity"
            = Value.int (((merged_mapped M).rows.filter
                (fun row => decide (keyOf (merged_mapped M).cols row = k))).length) := by
  refine ⟨mergedT s1 s2, _, merged_eq s1 s2 h1 h2, reconciler_eq s1 s2 h1 h2, ?_⟩
  intro k hk
  have hks : k ∈ sortedGroupKeys (merged_mapped (mergedT s1 s2)) := mem_sortedGroupKeys hk
  constructor
  · exact ⟨finalRow (merged_mapped (mergedT s1 s2)) k,
      List.mem_map_of_mem _ hks, keyOf_finalRow _ k⟩
  · intro r hr hkr
    obtain ⟨k2, hk2, rfl⟩ := List.mem_map.mp hr
    rw [keyOf_finalRow] at hkr
    subst hkr
    rw [cellD_finalRow_quantity]
    have hq : ∀ row ∈ groupRows (merged_mapped (mergedT s1 s2)) k2,
        cellD (merged_mapped (mergedT s1 s2)).cols row "quantity" = Value.int 1 :=
      fun row hrow => mm_quantity_unit s1 s2 hl1 hl2 row (List.mem_of_mem_filter hrow)
    rw [sum_units hq]
    rfl

/-- C1 witness: the claim instantiated at the spec's E2E example tables. -/
theorem C1_aggregation_count_witness :
    (exB.cols = colsB ∧ exC.cols = colsC ∧ (∀ r ∈ exB.rows, r.length = 4)
      ∧ (∀ r ∈ exC.rows, r.length = 2)) ∧
    (∃ M out, merged exB exC = some M ∧ reconciler exB exC = some out ∧
      ∀ k ∈ (merged_mapped M).rows.map (keyOf (merged_mapped M).cols),
        (∃ r ∈ out.rows, keyOf out.cols r = k) ∧
        ∀ r ∈ out.rows, keyOf out.cols r = k →
          cellD out.cols r "quantity"
            = Value.int (((merged_mapped M).rows.filter
                (fun row => decide (keyOf (merged_mapped M).cols row = k))).length)) :=
  ⟨⟨rfl, rfl, by decide, by decide⟩,
   C1_aggregation_count exB exC rfl rfl (by decide) (by decide)⟩

/-- C4: every reconciler output row's on-time value is the on-time cell of the
first row of its group, in joined-input order (first-seen policy). -/
theorem C4_on_time_first_seen (s1 s2 : Table)
    (h1 : s1.cols = colsB) (h2 : s2.cols = colsC) :
    ∃ M out, merged s1 s2 = some M ∧ reconciler s1 s2 = some out ∧
      ∀ r ∈ out.rows, ∃ r0,
        ((merged_mapped M).rows.filter
            (fun row => decide (keyOf (merged_mapped M).cols row = keyOf out.cols r))).head?
          = some r0 ∧
        cellD out.cols r "on_time" = cellD (merged_mapped M).cols r0 "on_time" := by
  refine ⟨mergedT s1 s2, _, merged_eq s1 s2 h1 h2, reconciler_eq s1 s2 h1 h2, ?_⟩
  intro r hr
  obtain ⟨k, hk, rfl⟩ := List.mem_map.mp hr
  rw [keyOf_finalRow]
  have hne := group_nonempty hk
  cases hgr : (groupRows (merged_mapped (mergedT s1 s2)) k).head? with
  | none => exact absurd (List.head?_eq_none_iff.mp hgr) hne
  | some r0 =>
    refine ⟨r0, hgr, ?_⟩
    rw [cellD_finalRow_on_time, hgr]
    rfl

/-- C4 witness: the claim instantiated at the spec's E2E example tables. -/
theorem C4_on_time_first_seen_witness :
    (exB.cols = colsB ∧ exC.cols = colsC) ∧
    (∃ M out, merged exB exC = some M ∧ reconciler exB exC = some out ∧
      ∀ r ∈ out.rows, ∃ r0,
        ((merged_mapped M).rows.filter
            (fun row => decide (keyOf (merged_mapped M).cols row = keyOf out.cols r))).head?
          = some r0 ∧
        cellD out.cols r "on_time" = cellD (merged_mapped M).cols r0 "on_time") :=
  ⟨⟨rfl, rfl⟩, C4_on_time_first_seen exB exC rfl rfl⟩

/-- C5: when the two fragments share no shipment identifier value the join is
empty, so the reconciler succeeds (no error) with an empty output. -/
theorem C5_disjoint_keys_empty (s1 s2 : Table)
    (h1 : s1.cols = colsB) (h2 : s2.cols = colsC)
    (hdisj : ∀ rl ∈ s1.rows, ∀ rr ∈ s2.rows,
      getCell s1.cols rl "shipment_identifier"
        ≠ getCell s2.cols rr "shipment_identifier") :
    ∃ out, reconciler s1 s2 = some out ∧ out.rows = [] := by
  have hmr : mergedRows s1 s2 = [] := by
    unfold mergedRows
    apply List.flatMap_eq_nil_iff.mpr
    intro rl hrl
    have hfil : s2.rows.filter
        (fun rr => decide (getCell colsC rr "shipment_identifier"
          = getCell colsB rl "shipment_identifier")) = [] := by
      apply List.filter_eq_nil_iff.mpr
      intro rr hrr
      rw [h1, h2] at hdisj
      simp only [decide_eq_true_eq]
      exact fun he => hdisj rl hrl rr hrr he.symm
    rw [hfil]
    rfl
  refine ⟨_, reconciler_eq s1 s2 h1 h2, ?_⟩
  simp only [mergedT, hmr]
  rfl

/-- C5 witness: the claim instantiated at example tables with disjoint keys. -/
theorem C5_disjoint_keys_empty_witness :
    (exB.cols = colsB ∧ Table.cols ⟨colsC, [[Value.int 3, Value.bool true]]⟩ = colsC ∧
      (∀ rl ∈ exB.rows, ∀ rr ∈ Table.rows ⟨colsC, [[Value.int 3, Value.bool true]]⟩,
        getCell exB.cols rl "shipment_identifier"
          ≠ getCell colsC rr "shipment_identifier")) ∧
    (∃ out, reconciler exB ⟨colsC, [[Value.int 3, Value.bool true]]⟩ = some out ∧
      out.rows = []) :=
  ⟨⟨rfl, rfl, by decide⟩,
   C5_disjoint_keys_empty exB ⟨colsC, [[Value.int 3, Value.bool true]]⟩ rfl rfl (by decide)⟩

/-- C7: every reconciler output row carries the driver sentinel "unknown". -/
theorem C7_driver_sentinel (s1 s2 : Table)
    (h1 : s1.cols = colsB) (h2 : s2.cols = colsC) :
    ∃ out, reconciler s1 s2 = some out ∧
      ∀ r ∈ out.rows, cellD out.cols r "driver_identifier" = Value.str "unknown" := by
  refine ⟨_, reconciler_eq s1 s2 h1 h2, ?_⟩
  intro r hr
  obtain ⟨k, hk, rfl⟩ := List.mem_map.mp hr
  exact cellD_finalRow_driver _ k

/-- C7 witness: the claim instantiated at the spec's E2E example tables. -/
theorem C7_driver_sentinel_witness :
    (exB.cols = colsB ∧ exC.cols = colsC) ∧
    (∃ out, reconciler exB exC = some out ∧
      ∀ r ∈ out.rows, cellD out.cols r "driver_identifier" = Value.str "unknown") :=
  ⟨⟨rfl, rfl⟩, C7_driver_sentinel exB exC rfl rfl⟩

/-- C9: the reconciler emits its summary rows with distinct aggregation keys
in ascending lexicographic key order (origin, then destination, then
product_name), whatever the input row order was. -/
theorem C9_sorted_output (s1 s2 : Table)
    (h1 : s1.cols = colsB) (h2 : s2.cols = colsC) :
    ∃ out, reconciler s1 s2 = some out ∧
      List.Sorted keyLE (out.rows.map (keyOf out.cols)) ∧
      (out.rows.map (keyOf out.cols)).Nodup := by
  refine ⟨_, reconciler_eq s1 s2 h1 h2, ?_⟩
  have hmap : ((sortedGroupKeys (merged_mapped (mergedT s1 s2))).map
        (finalRow (merged_mapped (mergedT s1 s2)))).map (keyOf shipmentCols)
      = sortedGroupKeys (merged_mapped (mergedT s1 s2)) := by
    rw [List.map_map]
    have hpt : ∀ k ∈ sortedGroupKeys (merged_mapped (mergedT s1 s2)),
        (keyOf shipmentCols ∘ finalRow (merged_mapped (mergedT s1 s2))) k = id k :=
      fun k _ => keyOf_finalRow _ k
    rw [List.map_congr_left hpt, List.map_id]
  constructor
  · rw [hmap]
    exact List.sorted_insertionSort keyLE _
  · rw [hmap]
    exact ((List.perm_insertionSort keyLE _).nodup_iff).mpr (List.nodup_dedup _)

/-- C9 witness: the claim instantiated at example tables whose two groups
arrive in descending key order and come out ascending. -/
theorem C9_sorted_output_witness :
    (Table.cols ⟨colsB, [[Value.int 1, Value.str "W2", Value.str "S1", Value.str "Widget"],
        [Value.int 2, Value.str "W1", Value.str "S1", Value.str "Widget"]]⟩ = colsB
      ∧ exC.cols = colsC) ∧
    (∃ out, reconciler ⟨colsB,
        [[Value.int 1, Value.str "W2", Value.str "S1", Value.str "Widget"],
         [Value.int 2, Value.str "W1", Value.str "S1", Value.str "Widget"]]⟩ exC
        = some out ∧
      List.Sorted keyLE (out.rows.map (keyOf out.cols)) ∧
      (out.rows.map (keyOf out.cols)).Nodup) :=
  ⟨⟨rfl, rfl⟩,
   C9_sorted_output ⟨colsB,
     [[Value.int 1, Value.str "W2", Value.str "S1", Value.str "Widget"],
      [Value.int 2, Value.str "W1", Value.str "S1", Value.str "Widget"]]⟩ exC rfl rfl⟩

/-! ## Structural lemmas about the Direct Mapper -/

/-- Closed form of the sheet-0 rename dictionary. -/
theorem renameA_eval (c : String) :
    renameCol mappingA c
      = if c = "origin_warehouse" then "origin"
        else if c = "destination_store" then "destination"
        else if c = "product" then "product_name"
        else if c = "product_quantity" then "quantity" else c := by
  by_cases h1 : c = "origin_warehouse"
  · subst h1; rfl
  by_cases h2 : c = "destination_store"
  · subst h2; rfl
  by_cases h3 : c = "product"
  · subst h3; rfl
  by_cases h4 : c = "product_quantity"
  · subst h4; rfl
  have hb1 : (c == "origin_warehouse") = false := beq_eq_false_iff_ne.mpr h1
  have hb2 : (c == "destination_store") = false := beq_eq_false_iff_ne.mpr h2
  have hb3 : (c == "product") = false := beq_eq_false_iff_ne.mpr h3
  have hb4 : (c == "product_quantity") = false := beq_eq_false_iff_ne.mpr h4
  simp [renameCol, mappingA, List.lookup, hb1, hb2, hb3, hb4, h1, h2, h3, h4]

theorem findIdx?_congr_from {α : Type} {p q : α → Bool} :
    ∀ (l : List α) (i : Nat), (∀ a ∈ l, p a = q a) →
      List.findIdx? p l i = List.findIdx? q l i := by
  intro l
  induction l with
  | nil => intro i h; rfl
  | cons a t ih =>
    intro i h
    rw [List.findIdx?_cons, List.findIdx?_cons, h a (List.mem_cons_self a t)]
    cases hq : q a with
    | false =>
      simp only [hq, Bool.false_eq_true, if_false]
      exact ih (i + 1) (fun b hb => h b (List.mem_cons_of_mem a hb))
    | true => simp [hq]

/-- Looking a label up in renamed columns is looking its pre-image up in the
original columns, whenever the rename relates the two labels pointwise. -/
theorem colIdx_map_congr {f : String → String} {cols : List String} {tgt src : String}
    (h : ∀ c ∈ cols, (f c == tgt) = (c == src)) :
    colIdx (cols.map f) tgt = colIdx cols src := by
  unfold colIdx
  rw [List.findIdx?_map]
  exact findIdx?_congr_from cols 0 (fun a ha => h a ha)

theorem cellD_map_congr {f : String → String} {cols : List String} {tgt src : String}
    (r : List Value) (h : ∀ c ∈ cols, (f c == tgt) = (c == src)) :
    cellD (cols.map f) r tgt = cellD cols r src := by
  unfold cellD getCell
  rw [colIdx_map_congr h]

/-- A label is present in the renamed columns iff its pre-image is present in
the original columns, whenever the rename relates the two labels pointwise. -/
theorem mem_map_rename_iff {f : String → String} {cols : List String} {tgt src : String}
    (h : ∀ c ∈ cols, (f c == tgt) = (c == src)) :
    tgt ∈ cols.map f ↔ src ∈ cols := by
  simp only [List.mem_map]
  constructor
  · rintro ⟨c, hc, rfl⟩
    have hcs : (c == src) = true := by rw [← h c hc]; simp
    have : c = src := by simpa using hcs
    exact this ▸ hc
  · intro hs
    refine ⟨src, hs, ?_⟩
    have hfs := h src hs
    simp only [beq_self_eq_true] at hfs
    simpa using hfs

theorem rnA_pt_origin {cols : List String} (h : "origin" ∉ cols) :
    ∀ c ∈ cols, ((renameCol mappingA c) == "origin") = (c == "origin_warehouse") := by
  intro c hc
  have hcn : c ≠ "origin" := fun he => h (he ▸ hc)
  rw [renameA_eval]
  by_cases h1 : c = "origin_warehouse"
  · subst h1; rfl
  by_cases h2 : c = "destination_store"
  · subst h2; rfl
  by_cases h3 : c = "product"
  · subst h3; rfl
  by_cases h4 : c = "product_quantity"
  · subst h4; rfl
  rw [if_neg h1, if_neg h2, if_neg h3, if_neg h4,
    beq_eq_false_iff_ne.mpr hcn, beq_eq_false_iff_ne.mpr h1]

theorem rnA_pt_destination {cols : List String} (h : "destination" ∉ cols) :
    ∀ c ∈ cols, ((renameCol mappingA c) == "destination") = (c == "destination_store") := by
  intro c hc
  have hcn : c ≠ "destination" := fun he => h (he ▸ hc)
  rw [renameA_eval]
  by_cases h1 : c = "origin_warehouse"
  · subst h1; rfl
  by_cases h2 : c = "destination_store"
  · subst h2; rfl
  by_cases h3 : c = "product"
  · subst h3; rfl
  by_cases h4 : c = "product_quantity"
  · subst h4; rfl
  rw [if_neg h1, if_neg h2, if_neg h3, if_neg h4,
    beq_eq_false_iff_ne.mpr hcn, beq_eq_false_iff_ne.mpr h2]

theorem rnA_pt_product_name {cols : List String} (h : "product_name" ∉ cols) :
    ∀ c ∈ cols, ((renameCol mappingA c) == "product_name") = (c == "product") := by
  intro c hc
  have hcn : c ≠ "product_name" := fun he => h (he ▸ hc)
  rw [renameA_eval]
  by_cases h1 : c = "origin_warehouse"
  · subst h1; rfl
  by_cases h2 : c = "destination_store"
  · subst h2; rfl
  by_cases h3 : c = "product"
  · subst h3; rfl
  by_cases h4 : c = "product_quantity"
  · subst h4; rfl
  rw [if_neg h1, if_neg h2, if_neg h3, if_neg h4,
    beq_eq_false_iff_ne.mpr hcn, beq_eq_false_iff_ne.mpr h3]

theorem rnA_pt_quantity {cols : List String} (h : "quantity" ∉ cols) :
    ∀ c ∈ cols, ((renameCol mappingA c) == "quantity") = (c == "product_quantity") := by
  intro c hc
  have hcn : c ≠ "quantity" := fun he => h (he ▸ hc)
  rw [renameA_eval]
  by_cases h1 : c = "origin_warehouse"
  · subst h1; rfl
  by_cases h2 : c = "destination_store"
  · subst h2; rfl
  by_cases h3 : c = "product"
  · subst h3; rfl
  by_cases h4 : c = "product_quantity"
  · subst h4; rfl
  rw [if_neg h1, if_neg h2, if_neg h3, if_neg h4,
    beq_eq_false_iff_ne.mpr hcn, beq_eq_false_iff_ne.mpr h4]

theorem rnA_pt_on_time {cols : List String} :
    ∀ c ∈ cols, ((renameCol mappingA c) == "on_time") = (c == "on_time") := by
  intro c _
  rw [renameA_eval]
  by_cases h1 : c = "origin_warehouse"
  · subst h1; rfl
  by_cases h2 : c = "destination_store"
  · subst h2; rfl
  by_cases h3 : c = "product"
  · subst h3; rfl
  by_cases h4 : c = "product_quantity"
  · subst h4; rfl
  rw [if_neg h1, if_neg h2, if_neg h3, if_neg h4]

theorem rnA_pt_driver {cols : List String} :
    ∀ c ∈ cols, ((renameCol mappingA c) == "driver_identifier") = (c == "driver_identifier") := by
  intro c _
  rw [renameA_eval]
  by_cases h1 : c = "origin_warehouse"
  · subst h1; rfl
  by_cases h2 : c = "destination_store"
  · subst h2; rfl
  by_cases h3 : c = "product"
  · subst h3; rfl
  by_cases h4 : c = "product_quantity"
  · subst h4; rfl
  rw [if_neg h1, if_neg h2, if_neg h3, if_neg h4]

/-- Full characterization of the Direct Mapper on a well-formed RawRecordSet A:
all six source fields present, and no column already uses a renamed target
label (the data model gives A exactly the six source attributes). -/
theorem sheet0_clean_eq (s : Table)
    (hsrc : ∀ c ∈ ["origin_warehouse", "destination_store", "product",
        "product_quantity", "on_time", "driver_identifier"], c ∈ s.cols)
    (htgt : ∀ c ∈ ["origin", "destination", "product_name", "quantity"], c ∉ s.cols) :
    sheet0_clean s
      = some ⟨shipmentCols,
          s.rows.map (fun r =>
            [cellD s.cols r "origin_warehouse", cellD s.cols r "destination_store",
             cellD s.cols r "product", cellD s.cols r "product_quantity",
             cellD s.cols r "on_time", cellD s.cols r "driver_identifier"])⟩ := by
  have hp1 := rnA_pt_origin (htgt "origin" (by simp))
  have hp2 := rnA_pt_destination (htgt "destination" (by simp))
  have hp3 := rnA_pt_product_name (htgt "product_name" (by simp))
  have hp4 := rnA_pt_quantity (htgt "quantity" (by simp))
  have hp5 := @rnA_pt_on_time s.cols
  have hp6 := @rnA_pt_driver s.cols
  have hguard : ∀ c ∈ shipmentCols, c ∈ (sheet0_mapped s).cols := by
    intro c hc
    simp only [shipmentCols, List.mem_cons, List.not_mem_nil, or_false] at hc
    rcases hc with rfl | rfl | rfl | rfl | rfl | rfl
    · exact (mem_map_rename_iff hp1).mpr (hsrc _ (by simp))
    · exact (mem_map_rename_iff hp2).mpr (hsrc _ (by simp))
    · exact (mem_map_rename_iff hp3).mpr (hsrc _ (by simp))
    · exact (mem_map_rename_iff hp4).mpr (hsrc _ (by simp))
    · exact (mem_map_rename_iff hp5).mpr (hsrc _ (by simp))
    · exact (mem_map_rename_iff hp6).mpr (hsrc _ (by simp))
  have hrows : (sheet0_mapped s).rows.map
        (fun r => shipmentCols.map (fun c => cellD (sheet0_mapped s).cols r c))
      = s.rows.map (fun r =>
          [cellD s.cols r "origin_warehouse", cellD s.cols r "destination_store",
           cellD s.cols r "product", cellD s.cols r "product_quantity",
           cellD s.cols r "on_time", cellD s.cols r "driver_identifier"]) := by
    show s.rows.map
        (fun r => shipmentCols.map (fun c => cellD (s.cols.map (renameCol mappingA)) r c))
      = _
    apply List.map_congr_left
    intro r _
    simp only [shipmentCols, List.map_cons, List.map_nil]
    rw [cellD_map_congr r hp1, cellD_map_congr r hp2, cellD_map_congr r hp3,
      cellD_map_congr r hp4, cellD_map_congr r hp5, cellD_map_congr r hp6]
  unfold sheet0_clean selectCols
  rw [if_pos hguard, hrows]

/-- C2: a RawRecordSet A carrying the six source fields (and no re-used
target label) maps to exactly one output row per input row, each output row
being the input row's six renamed fields in schema order, extras dropped. -/
theorem C2_mapper_rows (s : Table)
    (hsrc : ∀ c ∈ ["origin_warehouse", "destination_store", "product",
        "product_quantity", "on_time", "driver_identifier"], c ∈ s.cols)
    (htgt : ∀ c ∈ ["origin", "destination", "product_name", "quantity"], c ∉ s.cols) :
    ∃ out, sheet0_clean s = some out ∧ out.cols = shipmentCols ∧
      out.rows.length = s.rows.length ∧
      out.rows = s.rows.map (fun r =>
        [cellD s.cols r "origin_warehouse", cellD s.cols r "destination_store",
         cellD s.cols r "product", cellD s.cols r "product_quantity",
         cellD s.cols r "on_time", cellD s.cols r "driver_identifier"]) := by
  refine ⟨_, sheet0_clean_eq s hsrc htgt, rfl, ?_, rfl⟩
  simp

/-- C2 witness: the claim instantiated at the spec's E2E sheet-0 example. -/
theorem C2_mapper_rows_witness :
    ((∀ c ∈ ["origin_warehouse", "destination_store", "product",
        "product_quantity", "on_time", "driver_identifier"], c ∈ exA.cols) ∧
      (∀ c ∈ ["origin", "destination", "product_name", "quantity"], c ∉ exA.cols)) ∧
    (∃ out, sheet0_clean exA = some out ∧ out.cols = shipmentCols ∧
      out.rows.length = exA.rows.length ∧
      out.rows = exA.rows.map (fun r =>
        [cellD exA.cols r "origin_warehouse", cellD exA.cols r "destination_store",
         cellD exA.cols r "product", cellD exA.cols r "product_quantity",
         cellD exA.cols r "on_time", cellD exA.cols r "driver_identifier"])) :=
  ⟨⟨by decide, by decide⟩, C2_mapper_rows exA (by decide) (by decide)⟩

/-- C6: on a well-formed RawRecordSet A (no re-used target label), the Direct
Mapper fails exactly when one of the six required source fields is absent —
and in no other case. -/
theorem C6_schema_mismatch_iff (s : Table)
    (htgt : ∀ c ∈ ["origin", "destination", "product_name", "quantity"], c ∉ s.cols) :
    sheet0_clean s = none
      ↔ ¬ ∀ c ∈ ["origin_warehouse", "destination_store", "product",
          "product_quantity", "on_time", "driver_identifier"], c ∈ s.cols := by
  have hp1 := rnA_pt_origin (htgt "origin" (by simp))
  have hp2 := rnA_pt_destination (htgt "destination" (by simp))
  have hp3 := rnA_pt_product_name (htgt "product_name" (by simp))
  have hp4 := rnA_pt_quantity (htgt "quantity" (by simp))
  have hp5 := @rnA_pt_on_time s.cols
  have hp6 := @rnA_pt_driver s.cols
  have hiff : (∀ c ∈ shipmentCols, c ∈ (sheet0_mapped s).cols)
      ↔ ∀ c ∈ ["origin_warehouse", "destination_store", "product",
          "product_quantity", "on_time", "driver_identifier"], c ∈ s.cols := by
    constructor
    · intro hall c hc
      simp only [List.mem_cons, List.not_mem_nil, or_false] at hc
      rcases hc with rfl | rfl | rfl | rfl | rfl | rfl
      · exact (mem_map_rename_iff hp1).mp (hall "origin" (by simp [shipmentCols]))
      · exact (mem_map_rename_iff hp2).mp (hall "destination" (by simp [shipmentCols]))
      · exact (mem_map_rename_iff hp3).mp (hall "product_name" (by simp [shipmentCols]))
      · exact (mem_map_rename_iff hp4).mp (hall "quantity" (by simp [shipmentCols]))
      · exact (mem_map_rename_iff hp5).mp (hall "on_time" (by simp [shipmentCols]))
      · exact (mem_map_rename_iff hp6).mp (hall "driver_identifier" (by simp [shipmentCols]))
    · intro hall c hc
      simp only [shipmentCols, List.mem_cons, List.not_mem_nil, or_false] at hc
      rcases hc with rfl | rfl | rfl | rfl | rfl | rfl
      · exact (mem_map_rename_iff hp1).mpr (hall _ (by simp))
      · exact (mem_map_rename_iff hp2).mpr (hall _ (by simp))
      · exact (mem_map_rename_iff hp3).mpr (hall _ (by simp))
      · exact (mem_map_rename_iff hp4).mpr (hall _ (by simp))
      · exact (mem_map_rename_iff hp5).mpr (hall _ (by simp))
      · exact (mem_map_rename_iff hp6).mpr (hall _ (by simp))
  unfold sheet0_clean selectCols
  by_cases hg : ∀ c ∈ shipmentCols, c ∈ (sheet0_mapped s).cols
  · rw [if_pos hg]
    exact iff_of_false (by simp) (not_not_intro (hiff.mp hg))
  · rw [if_neg hg]
    exact iff_of_true rfl (fun hall => hg (hiff.mpr hall))

/-- C6 witness: a table missing `product_quantity` (all other source fields
present), on which the mapper indeed fails. -/
theorem C6_schema_mismatch_iff_witness :
    (∀ c ∈ ["origin", "destination", "product_name", "quantity"],
      c ∉ Table.cols ⟨["origin_warehouse", "destination_store", "product",
        "on_time", "driver_identifier"], []⟩) ∧
    (sheet0_clean ⟨["origin_warehouse", "destination_store", "product",
        "on_time", "driver_identifier"], []⟩ = none
      ↔ ¬ ∀ c ∈ ["origin_warehouse", "destination_store", "product",
          "product_quantity", "on_time", "driver_identifier"],
          c ∈ Table.cols ⟨["origin_warehouse", "destination_store", "product",
            "on_time", "driver_identifier"], []⟩) :=
  ⟨by decide,
   C6_schema_mismatch_iff ⟨["origin_warehouse", "destination_store", "product",
     "on_time", "driver_identifier"], []⟩ (by decide)⟩

/-! ## Quantity positivity (C3), append order (C8), join multiplicity (C10) -/

/-- C3 counterexample: the Direct Mapper happily emits a row with
`quantity = 0`; the mapper performs no positivity validation, so "every
Direct Mapper output row has quantity > 0" is false as stated. -/
theorem C3_counterexample :
    sheet0_clean exA0
      = some ⟨shipmentCols,
          [[Value.str "W3", Value.str "S3", Value.str "Bolt", Value.int 0,
            Value.bool true, Value.str "D1"]]⟩ ∧
    ¬ (∀ r ∈ [[Value.str "W3", Value.str "S3", Value.str "Bolt", Value.int 0,
          Value.bool true, Value.str "D1"]],
        isPosInt (cellD shipmentCols r "quantity") = true) := by decide

/-- C3 (amended): reconciler output rows always carry a positive integer
quantity; Direct Mapper rows carry the input `product_quantity` through
unvalidated, so their quantities are all positive iff the inputs' are. -/
theorem C3_quantity_positive (s0 s1 s2 : Table)
    (hsrc : ∀ c ∈ ["origin_warehouse", "destination_store", "product",
        "product_quantity", "on_time", "driver_identifier"], c ∈ s0.cols)
    (htgt : ∀ c ∈ ["origin", "destination", "product_name", "quantity"], c ∉ s0.cols)
    (h1 : s1.cols = colsB) (h2 : s2.cols = colsC)
    (hl1 : ∀ r ∈ s1.rows, r.length = 4) (hl2 : ∀ r ∈ s2.rows, r.length = 2) :
    (∃ out0, sheet0_clean s0 = some out0 ∧
      ((∀ r ∈ out0.rows, isPosInt (cellD out0.cols r "quantity") = true)
        ↔ (∀ r ∈ s0.rows, isPosInt (cellD s0.cols r "product_quantity") = true))) ∧
    (∃ out, reconciler s1 s2 = some out ∧
      ∀ r ∈ out.rows, isPosInt (cellD out.cols r "quantity") = true) := by
  constructor
  · refine ⟨_, sheet0_clean_eq s0 hsrc htgt, ?_⟩
    constructor
    · intro h r hr
      exact h _ (List.mem_map_of_mem _ hr)
    · intro h r hr
      obtain ⟨r0, hr0, rfl⟩ := List.mem_map.mp hr
      exact h r0 hr0
  · refine ⟨_, reconciler_eq s1 s2 h1 h2, ?_⟩
    intro r hr
    obtain ⟨k, hk, rfl⟩ := List.mem_map.mp hr
    have hq : ∀ row ∈ groupRows (merged_mapped (mergedT s1 s2)) k,
        cellD (merged_mapped (mergedT s1 s2)).cols row "quantity" = Value.int 1 :=
      fun row hrow => mm_quantity_unit s1 s2 hl1 hl2 row (List.mem_of_mem_filter hrow)
    rw [cellD_finalRow_quantity, sum_units hq]
    have hpos : 0 < (groupRows (merged_mapped (mergedT s1 s2)) k).length :=
      List.length_pos.mpr (group_nonempty hk)
    simp only [isPosInt, decide_eq_true_eq]
    exact_mod_cast hpos

/-- C3 witness: the amended claim instantiated at the spec's E2E examples. -/
theorem C3_quantity_positive_witness :
    ((∀ c ∈ ["origin_warehouse", "destination_store", "product",
        "product_quantity", "on_time", "driver_identifier"], c ∈ exA.cols) ∧
      (∀ c ∈ ["origin", "destination", "product_name", "quantity"], c ∉ exA.cols) ∧
      exB.cols = colsB ∧ exC.cols = colsC ∧
      (∀ r ∈ exB.rows, r.length = 4) ∧ (∀ r ∈ exC.rows, r.length = 2)) ∧
    ((∃ out0, sheet0_clean exA = some out0 ∧
      ((∀ r ∈ out0.rows, isPosInt (cellD out0.cols r "quantity") = true)
        ↔ (∀ r ∈ exA.rows, isPosInt (cellD exA.cols r "product_quantity") = true))) ∧
    (∃ out, reconciler exB exC = some out ∧
      ∀ r ∈ out.rows, isPosInt (cellD out.cols r "quantity") = true)) :=
  ⟨⟨by decide, by decide, rfl, rfl, by decide, by decide⟩,
   C3_quantity_positive exA exB exC (by decide) (by decide) rfl rfl
     (by decide) (by decide)⟩

/-- C8: on a fully successful run the destination table receives exactly two
appended batches, the mapper's first and the reconciler's second, and its
final content is the mapper's rows followed by the reconciler's rows. -/
theorem C8_append_order (s0 s1 s2 t0 t12 : Table)
    (h0 : sheet0_clean s0 = some t0) (h12 : reconciler s1 s2 = some t12) :
    appendTrace s0 s1 s2 = ([t0.rows, t12.rows], true) ∧
    dbRows s0 s1 s2 = t0.rows ++ t12.rows := by
  have ht : appendTrace s0 s1 s2 = ([t0.rows, t12.rows], true) := by
    unfold appendTrace
    rw [h0, h12]
  refine ⟨ht, ?_⟩
  unfold dbRows
  rw [ht]
  simp

/-- C8 witness: the run on the spec's E2E examples appends the mapped sheet-0
batch first and the aggregated batch second. -/
theorem C8_append_order_witness :
    (sheet0_clean exA
        = some ⟨shipmentCols,
            [[Value.str "W2", Value.str "S2", Value.str "Gadget", Value.int 5,
              Value.bool false, Value.str "D9"]]⟩ ∧
      reconciler exB exC
        = some ⟨shipmentCols,
            [[Value.str "W1", Value.str "S1", Value.str "Widget", Value.int 2,
              Value.bool true, Value.str "unknown"]]⟩) ∧
    (appendTrace exA exB exC
        = ([Table.rows ⟨shipmentCols,
              [[Value.str "W2", Value.str "S2", Value.str "Gadget", Value.int 5,
                Value.bool false, Value.str "D9"]]⟩,
            Table.rows ⟨shipmentCols,
              [[Value.str "W1", Value.str "S1", Value.str "Widget", Value.int 2,
                Value.bool true, Value.str "unknown"]]⟩], true) ∧
      dbRows exA exB exC
        = Table.rows ⟨shipmentCols,
            [[Value.str "W2", Value.str "S2", Value.str "Gadget", Value.int 5,
              Value.bool false, Value.str "D9"]]⟩
          ++ Table.rows ⟨shipmentCols,
              [[Value.str "W1", Value.str "S1", Value.str "Widget", Value.int 2,
                Value.bool true, Value.str "unknown"]]⟩) :=
  ⟨⟨by decide, by decide⟩,
   C8_append_order exA exB exC _ _ (by decide) (by decide)⟩

/-- A merged row's shipment identifier is its left fragment's identifier. -/
theorem getCell_merged_id {rl x : List Value} (h4 : rl.length = 4) :
    getCell mergedCols (rl ++ x) "shipment_identifier"
      = getCell colsB rl "shipment_identifier" := by
  have hm : colIdx mergedCols "shipment_identifier" = some 0 := rfl
  have hb : colIdx colsB "shipment_identifier" = some 0 := rfl
  simp [getCell, hm, hb, List.getElem?_append, h4]

/-- Crossing one left row against its matching right rows yields its full
match count when its key is `v`, and nothing with key `v` otherwise. -/
theorem count_inner (a : List Value) (rows2 : List (List Value)) (v : Value)
    (ha4 : a.length = 4) :
    (((rows2.filter (fun rr => decide (getCell colsC rr "shipment_identifier"
          = getCell colsB a "shipment_identifier"))).map
        (fun rr => a ++ rr.eraseIdx 0)).filter
        (fun r => decide (getCell mergedCols r "shipment_identifier" = some v))).length
      = if getCell colsB a "shipment_identifier" = some v then
          (rows2.filter (fun rr =>
            decide (getCell colsC rr "shipment_identifier" = some v))).length
        else 0 := by
  rw [List.filter_map, List.length_map]
  by_cases hva : getCell colsB a "shipment_identifier" = some v
  · rw [if_pos hva]
    have h1 : ((fun r => decide (getCell mergedCols r "shipment_identifier" = some v))
          ∘ (fun rr : List Value => a ++ rr.eraseIdx 0)) = fun _ => true := by
      funext rr
      simp [Function.comp, getCell_merged_id ha4, hva]
    rw [h1, List.filter_true]
    congr 1
    apply List.filter_congr
    intro rr _
    rw [hva]
  · rw [if_neg hva]
    have h1 : ((fun r => decide (getCell mergedCols r "shipment_identifier" = some v))
          ∘ (fun rr : List Value => a ++ rr.eraseIdx 0)) = fun _ => false := by
      funext rr
      simp [Function.comp, getCell_merged_id ha4, hva]
    rw [h1]
    simp

/-- The join multiplies key multiplicities: the number of merged rows whose
identifier is `v` is the product of the two fragments' counts of `v`. -/
theorem mergedRows_count (v : Value) :
    ∀ (rows1 rows2 : List (List Value)), (∀ r ∈ rows1, r.length = 4) →
      ((mergedRows ⟨colsB, rows1⟩ ⟨colsC, rows2⟩).filter
          (fun r => decide (getCell mergedCols r "shipment_identifier" = some v))).length
        = (rows1.filter (fun r =>
            decide (getCell colsB r "shipment_identifier" = some v))).length
          * (rows2.filter (fun r =>
            decide (getCell colsC r "shipment_identifier" = some v))).length := by
  intro rows1
  induction rows1 with
  | nil => intro rows2 h; simp [mergedRows]
  | cons a t ih =>
    intro rows2 h
    have ha4 : a.length = 4 := h a (List.mem_cons_self a t)
    have hsplit : mergedRows ⟨colsB, a :: t⟩ ⟨colsC, rows2⟩
        = ((rows2.filter (fun rr => decide (getCell colsC rr "shipment_identifier"
              = getCell colsB a "shipment_identifier"))).map
            (fun rr => a ++ rr.eraseIdx 0))
          ++ mergedRows ⟨colsB, t⟩ ⟨colsC, rows2⟩ := rfl
    rw [hsplit, List.filter_append, List.length_append,
      ih rows2 (fun r hr => h r (List.mem_cons_of_mem a hr)),
      count_inner a rows2 v ha4]
    by_cases hva : getCell colsB a "shipment_identifier" = some v
    · rw [if_pos hva]
      have : (a :: t).filter (fun r =>
            decide (getCell colsB r "shipment_identifier" = some v))
          = a :: t.filter (fun r =>
            decide (getCell colsB r "shipment_identifier" = some v)) := by
        simp [List.filter_cons, hva]
      rw [this, List.length_cons]
      ring
    · rw [if_neg hva]
      have : (a :: t).filter (fun r =>
            decide (getCell colsB r "shipment_identifier" = some v))
          = t.filter (fun r =>
            decide (getCell colsB r "shipment_identifier" = some v)) := by
        simp [List.filter_cons, hva]
      rw [this]
      omega

/-- C10: the join on `shipment_identifier` is many-to-many — a key value
occurring m times in sheet 1 and n times in sheet 2 yields m·n joined rows,
each of which is then assigned unit quantity 1. -/
theorem C10_many_to_many (s1 s2 : Table) (v : Value)
    (h1 : s1.cols = colsB) (h2 : s2.cols = colsC)
    (hl1 : ∀ r ∈ s1.rows, r.length = 4) (hl2 : ∀ r ∈ s2.rows, r.length = 2) :
    ∃ M, merged s1 s2 = some M ∧
      ((M.rows.filter (fun r =>
          decide (getCell M.cols r "shipment_identifier" = some v))).length
        = (s1.rows.filter (fun r =>
            decide (getCell s1.cols r "shipment_identifier" = some v))).length
          * (s2.rows.filter (fun r =>
            decide (getCell s2.cols r "shipment_identifier" = some v))).length) ∧
      ∀ r ∈ (merged_mapped M).rows,
        cellD (merged_mapped M).cols r "quantity" = Value.int 1 := by
  refine ⟨mergedT s1 s2, merged_eq s1 s2 h1 h2, ?_,
    mm_quantity_unit s1 s2 hl1 hl2⟩
  rw [h1, h2]
  exact mergedRows_count v s1.rows s2.rows hl1

/-- C10 witness: a key occurring twice on each side yields 2·2 = 4 joined
rows. -/
theorem C10_many_to_many_witness :
    (Table.cols ⟨colsB, [[Value.int 1, Value.str "W1", Value.str "S1", Value.str "Widget"],
        [Value.int 1, Value.str "W1", Value.str "S2", Value.str "Widget"]]⟩ = colsB ∧
      Table.cols ⟨colsC, [[Value.int 1, Value.bool true],
        [Value.int 1, Value.bool false]]⟩ = colsC) ∧
    (∃ M, merged ⟨colsB, [[Value.int 1, Value.str "W1", Value.str "S1", Value.str "Widget"],
          [Value.int 1, Value.str "W1", Value.str "S2", Value.str "Widget"]]⟩
        ⟨colsC, [[Value.int 1, Value.bool true], [Value.int 1, Value.bool false]]⟩
        = some M ∧
      ((M.rows.filter (fun r =>
          decide (getCell M.cols r "shipment_identifier" = some (Value.int 1)))).length
        = (Table.rows ⟨colsB, [[Value.int 1, Value.str "W1", Value.str "S1", Value.str "Widget"],
            [Value.int 1, Value.str "W1", Value.str "S2", Value.str "Widget"]]⟩ |>.filter (fun r =>
            decide (getCell colsB r "shipment_identifier" = some (Value.int 1)))).length
          * (Table.rows ⟨colsC, [[Value.int 1, Value.bool true],
              [Value.int 1, Value.bool false]]⟩ |>.filter (fun r =>
            decide (getCell colsC r "shipment_identifier" = some (Value.int 1)))).length) ∧
      ∀ r ∈ (merged_mapped M).rows,
        cellD (merged_mapped M).cols r "quantity" = Value.int 1) :=
  ⟨⟨rfl, rfl⟩,
   C10_many_to_many
     ⟨colsB, [[Value.int 1, Value.str "W1", Value.str "S1", Value.str "Widget"],
       [Value.int 1, Value.str "W1", Value.str "S2", Value.str "Widget"]]⟩
     ⟨colsC, [[Value.int 1, Value.bool true], [Value.int 1, Value.bool false]]⟩
     (Value.int 1) rfl rfl (by decide) (by decide)⟩
